import Mathlib

/-!
A shallow embedding of the Filecoin Pin upload action's run script
(`.github/actions/filecoin-pin-upload-action/run.mjs`).

The script is a single sequential Node process.  We embed it as a pure
function from a process environment (`Env`) and an oracle for the external
calls (`Oracle`: the filecoin-pin SDK functions and the fallible filesystem
reads/writes) to a `RunResult`: the ordered trace of externally visible
calls (`Event`s) together with the process exit code and which kind of exit
path was taken (normal return, error caught by the top-level handler, or a
direct `process.exit`).

External functions that the script imports (`ethers.parseUnits`, the JS
`Number` conversion, the SDK calls) are modelled here: the SDK calls as
oracle fields that either return a value or throw, `parseUnits` and
`Number` as executable functions over strings following the semantics the
script relies on.  Appends to the `GITHUB_OUTPUT` / summary files are
modelled as events and assumed not to throw.
-/

/-- An exact finite JavaScript number as produced by parsing a decimal
string: the value `mant * 10 ^ exp`.  The script only ever compares the
parsed `minDays` with `0` (the sign of `mant`) and hands it to the external
SDK, so this exact representation is faithful. -/
structure JSFinite where
  mant : Int
  exp : Int
deriving DecidableEq, Repr

/-- The rational value of an exact finite JavaScript number. -/
def jsfToRat (v : JSFinite) : ℚ :=
  if 0 ≤ v.exp then (v.mant : ℚ) * (10 : ℚ) ^ v.exp.toNat
  else (v.mant : ℚ) / (10 : ℚ) ^ (-v.exp).toNat

/-- A JavaScript number, to the resolution this script distinguishes:
`Number.isFinite` fails on `nan`/`posInf`/`negInf`. -/
inductive JSNum where
  | nan
  | posInf
  | negInf
  | num (v : JSFinite)
deriving DecidableEq

/-- Numeric value of a list of decimal digit characters. -/
def digitsVal (cs : List Char) : Nat :=
  cs.foldl (fun a c => a * 10 + (c.toNat - 48)) 0

/-- Models the JS `String.prototype.trim()`: strip leading and trailing
whitespace. -/
def jsTrim (s : String) : String :=
  String.mk (((s.data.dropWhile Char.isWhitespace).reverse.dropWhile
    Char.isWhitespace).reverse)

/-- Models the JS `String.prototype.toUpperCase()` on the ASCII names this
script uppercases. -/
def jsToUpper (s : String) : String := String.mk (s.data.map Char.toUpper)

/-- Models the JS `String.prototype.toLowerCase()` on the ASCII values this
script lowercases. -/
def jsToLower (s : String) : String := String.mk (s.data.map Char.toLower)

/-- Exponent part of a JS decimal literal applied to a parsed mantissa. -/
def jsExpOf (mant : Int) (exp0 : Int) (er : List Char) : Option JSFinite :=
  let sgn : Bool × List Char := match er with
    | '+' :: t => (false, t)
    | '-' :: t => (true, t)
    | t => (false, t)
  let ed := sgn.2.takeWhile Char.isDigit
  let tl := sgn.2.dropWhile Char.isDigit
  if ed.isEmpty ∨ ¬ tl.isEmpty then none
  else
    some (JSFinite.mk mant
      (exp0 + (if sgn.1 then -(digitsVal ed : Int) else (digitsVal ed : Int))))

/-- Models the StrDecimalLiteral part of JS `Number(string)` (no sign):
digits, optional fraction, optional exponent; at least one mantissa digit. -/
def jsDecimalOf (cs : List Char) : Option JSFinite :=
  let ip := cs.takeWhile Char.isDigit
  let r1 := cs.dropWhile Char.isDigit
  let fp := match r1 with
    | '.' :: rest => rest.takeWhile Char.isDigit
    | _ => []
  let r2 := match r1 with
    | '.' :: rest => rest.dropWhile Char.isDigit
    | _ => r1
  if ip.isEmpty ∧ fp.isEmpty then none
  else
    let mant : Int := digitsVal (ip ++ fp)
    match r2 with
    | [] => some (JSFinite.mk mant (-(fp.length : Int)))
    | 'e' :: er => jsExpOf mant (-(fp.length : Int)) er
    | 'E' :: er => jsExpOf mant (-(fp.length : Int)) er
    | _ => none

/-- Value of one digit in a given radix, if valid. -/
def radixDigit (radix : Nat) (c : Char) : Option Nat :=
  let v :=
    if '0' ≤ c ∧ c ≤ '9' then some (c.toNat - 48)
    else if 'a' ≤ c ∧ c ≤ 'f' then some (c.toNat - 87)
    else if 'A' ≤ c ∧ c ≤ 'F' then some (c.toNat - 55)
    else none
  match v with
  | some d => if d < radix then some d else none
  | none => none

/-- Models JS non-decimal integer literals (`0x…` body etc.): all characters
must be digits of the radix and there must be at least one. -/
def radixVal (radix : Nat) (cs : List Char) : Option Nat :=
  match cs with
  | [] => none
  | _ =>
    cs.foldl
      (fun acc c =>
        match acc, radixDigit radix c with
        | some a, some d => some (a * radix + d)
        | _, _ => none)
      (some 0)

/-- An unsigned JS numeric string: `Infinity`, a radix literal, or a decimal. -/
def jsUnsignedOf (cs : List Char) : JSNum :=
  if cs = "Infinity".data then JSNum.posInf
  else
    match cs with
    | '0' :: 'x' :: rest | '0' :: 'X' :: rest =>
      (match radixVal 16 rest with
       | some n => JSNum.num (JSFinite.mk n 0)
       | none => JSNum.nan)
    | '0' :: 'o' :: rest | '0' :: 'O' :: rest =>
      (match radixVal 8 rest with
       | some n => JSNum.num (JSFinite.mk n 0)
       | none => JSNum.nan)
    | '0' :: 'b' :: rest | '0' :: 'B' :: rest =>
      (match radixVal 2 rest with
       | some n => JSNum.num (JSFinite.mk n 0)
       | none => JSNum.nan)
    | _ =>
      (match jsDecimalOf cs with | some v => JSNum.num v | none => JSNum.nan)

/-- A signed JS numeric string (after a `+` or `-` only `Infinity` or a
decimal literal may follow; radix literals take no sign). -/
def jsSignedOf (neg : Bool) (cs : List Char) : JSNum :=
  if cs = "Infinity".data then (if neg then JSNum.negInf else JSNum.posInf)
  else
    match jsDecimalOf cs with
    | some v => JSNum.num (JSFinite.mk (if neg then -v.mant else v.mant) v.exp)
    | none => JSNum.nan

/-- Models the JS `Number(string)` conversion as used on the `minDays`
input: trim, empty is `0`, otherwise a (possibly signed) numeric literal. -/
def jsNumberOfString (s : String) : JSNum :=
  match (jsTrim s).data with
  | [] => JSNum.num (JSFinite.mk 0 0)
  | '+' :: rest => jsSignedOf false rest
  | '-' :: rest => jsSignedOf true rest
  | cs => jsUnsignedOf cs

/-- Models `let minDays = Number(minDaysRaw); if (!Number.isFinite(minDays)
|| minDays < 0) minDays = 0` (run.mjs lines 57-58). -/
def coerceMinDays (n : JSNum) : JSFinite :=
  match n with
  | JSNum.num v => if v.mant < 0 then JSFinite.mk 0 0 else v
  | _ => JSFinite.mk 0 0

/-- Models `ethers.parseUnits(s, 18)`: an optional leading `-`, then decimal
digits with an optional fraction of at most 18 digits, at least one digit in
all; the result is the value scaled by `10^18`.  `none` models a throw. -/
def parseUnits18 (s : String) : Option Int :=
  let signed : Bool × List Char := match s.data with
    | '-' :: rest => (true, rest)
    | cs => (false, cs)
  let cs := signed.2
  let ip := cs.takeWhile Char.isDigit
  let r1 := cs.dropWhile Char.isDigit
  let fp := match r1 with
    | '.' :: rest => rest.takeWhile Char.isDigit
    | _ => []
  let r2 := match r1 with
    | '.' :: rest => rest.dropWhile Char.isDigit
    | _ => r1
  if r2.isEmpty ∧ ¬ (ip.isEmpty ∧ fp.isEmpty) ∧ fp.length ≤ 18 then
    let mag : Int := (digitsVal ip : Int) * 10 ^ 18 + (digitsVal fp : Int) * 10 ^ (18 - fp.length)
    some (if signed.1 then -mag else mag)
  else none

/-- JS `a || b` on strings: the empty string is falsy. -/
def jsOrElse (a b : String) : String := if a = "" then b else a

/-- `path.join` for the fixed relative components this script joins. -/
def joinPath (a b : String) : String := a ++ "/" ++ b

/-- The non-`INPUT_*` process environment the script reads. -/
structure ProcEnv where
  actionPhase : Option String
  githubWorkspace : Option String
  cwd : String
  githubOutput : Option String
  githubStepSummary : Option String
  fromArtifact : Option String
  cacheDir : Option String
  preparedCarPath : Option String
  preparedRootCid : Option String

/-- The full process environment: `INPUT_*` variables plus the rest. -/
structure Env where
  inputVars : String → Option String
  proc : ProcEnv

/-- Models `getInput` (run.mjs lines 17-19):
`(process.env['INPUT_' + name.toUpperCase()] ?? fallback).trim()`.
Note `??` substitutes the fallback only when the variable is absent; a
present-but-empty value is kept and trimmed to the empty string. -/
def getInput (env : Env) (name : String) (fallback : String) : String :=
  jsTrim ((env.inputVars ("INPUT_" ++ jsToUpper name)).getD fallback)

/-- Models `parseBoolean` (run.mjs lines 21-26) on a string argument. -/
def parseBoolean (v : String) : Bool :=
  let s := jsToLower (jsTrim v)
  s == "true" || s == "1" || s == "yes"

/-- Payment status snapshot returned by the external `getPaymentStatus`. -/
structure PaymentStatus where
  depositedAmount : Int
deriving DecidableEq

/-- Provider record inside a cached metadata file (`meta.provider`). -/
structure MetaProvider where
  id : String
  name : String
deriving DecidableEq

/-- A cached metadata record (`upload.json`), as read by the from-cache
phase. -/
structure Meta where
  network : String
  rootCid : String
  dataSetId : String
  pieceCid : String
  carPath : String
  previewURL : String
  provider : Option MetaProvider
deriving DecidableEq

/-- The `providerInfo` record returned by `createStorageContext`. -/
structure ProviderInfo where
  id : Option String
  name : Option String
  serviceProvider : Option String
deriving DecidableEq

/-- The record returned by `uploadToSynapse`. -/
structure UploadResult where
  pieceCid : String
  pieceId : String
  dataSetId : String
deriving DecidableEq

/-- Results of the external calls the script awaits, in oracle form: each
fallible call either returns a value or throws (`Except.error`).
`status1`/`status2` are the first and second `getPaymentStatus` results;
`topUpFor` is `computeTopUpForDuration(status, minDays).topUp`. -/
structure Oracle where
  fsStat : Except String Bool
  pack : Except String (String × String)
  initSynapse : Except String Unit
  checkAllowances : Except String Unit
  status1 : Except String PaymentStatus
  topUpFor : PaymentStatus → JSFinite → Int
  deposit : Int → Except String Unit
  status2 : Except String PaymentStatus
  readCar : Except String Nat
  validateSetup : Nat → Except String Unit
  createStorage : Except String ProviderInfo
  uploadCall : Except String UploadResult
  copyCar : Except String Unit
  writeMetadata : Except String Unit
  cleanupOk : Except String Unit
  readMeta : Except String Meta

/-- Externally visible calls made by the script, in program order. -/
inductive Event where
  | statPath
  | pack
  | readMeta
  | initSynapse
  | checkAllowances
  | fetchStatus
  | deposit (amount : Int)
  | readCar
  | validateCapacity (size : Nat)
  | createStorage
  | uploadCall
  | mkdirArtifacts
  | copyCar
  | writeMetadata
  | mirrorCache
  | output (name : String) (value : String)
  | warn
  | summary
  | cleanup
deriving DecidableEq, Repr

/-- How the body of `main` finished. -/
inductive MainResult where
  | ok
  | thrown
  | exited (code : Nat)
deriving DecidableEq, Repr

/-- Which kind of exit path the whole process took. -/
inductive ExitPath where
  | success
  | caughtError
  | directExit
deriving DecidableEq, Repr

/-- Trace, exit code and exit path of one whole process run. -/
structure RunResult where
  trace : List Event
  exitCode : Nat
  path : ExitPath
deriving DecidableEq, Repr

/-- `ACTION_PHASE || 'single'` (run.mjs line 35). -/
def phaseOf (env : Env) : String := jsOrElse (env.proc.actionPhase.getD "") "single"

/-- The parsed `minDays` value (run.mjs lines 38, 57-58). -/
def minDaysOf (env : Env) : JSFinite :=
  coerceMinDays (jsNumberOfString (getInput env "minDays" "10"))

/-- The parsed `minBalance` value (run.mjs lines 39, 59): empty input is
`0n`, otherwise `parseUnits(raw, 18)`; `none` models the parse throwing. -/
def minBalanceParsed (env : Env) : Option Int :=
  let raw := getInput env "minBalance" ""
  if raw = "" then some 0 else parseUnits18 raw

/-- The parsed `maxTopUp` value (run.mjs lines 40, 60): empty input leaves
the ceiling unset; outer `none` models the parse throwing. -/
def maxTopUpParsed (env : Env) : Option (Option Int) :=
  let raw := getInput env "maxTopUp" ""
  if raw = "" then some none else (parseUnits18 raw).map some

/-- The token-validation guard (run.mjs line 63):
`token && token.toUpperCase() !== 'USDFC'`. -/
def tokenFails (env : Env) : Bool :=
  let token := getInput env "token" "USDFC"
  token != "" && jsToUpper token != "USDFC"

/-- `FROM_ARTIFACT` provenance flag of the from-cache phase (run.mjs
line 86): `String(process.env.FROM_ARTIFACT || '').toLowerCase() === 'true'`. -/
def fromArtifactOf (env : Env) : Bool :=
  jsToLower (env.proc.fromArtifact.getD "") == "true"

/-- `GITHUB_WORKSPACE || process.cwd()` (run.mjs line 53). -/
def workspaceOf (p : ProcEnv) : String := jsOrElse (p.githubWorkspace.getD "") p.cwd

/-- `meta.provider?.id || ''` (run.mjs line 95). -/
def metaProviderId (m : Meta) : String :=
  match m.provider with
  | some p => p.id
  | none => ""

/-- `meta.provider?.name || ''` (run.mjs line 96). -/
def metaProviderName (m : Meta) : String :=
  match m.provider with
  | some p => p.name
  | none => ""

/-- `providerInfo.id ?? ''` (run.mjs line 252). -/
def providerIdOf (p : ProviderInfo) : String := p.id.getD ""

/-- `providerInfo.name ?? (providerInfo.serviceProvider || '')`
(run.mjs line 253). -/
def providerNameOf (p : ProviderInfo) : String :=
  match p.name with
  | some n => n
  | none => p.serviceProvider.getD ""

/-- Models a sequence of `writeOutput` calls (run.mjs lines 28-32): a line
is appended for each pair when `GITHUB_OUTPUT` is configured, and nothing
happens otherwise. -/
def outputEvents (gho : Option String) (kvs : List (String × String)) : List Event :=
  match gho with
  | some _ => kvs.map (fun kv => Event.output kv.1 kv.2)
  | none => []

/-- The top-up folding of run.mjs lines 199-209 (and identically lines
115-123 on the cache path): start from `0n`, raise to the duration-based
top-up when `minDays > 0`, then raise to the balance shortfall when
`minBalance > 0n && status.depositedAmount < minBalance`. -/
def requiredTopUpOf (topUpFor : PaymentStatus → JSFinite → Int) (status : PaymentStatus)
    (minDays : JSFinite) (minBalance : Int) : Int :=
  let r0 : Int := 0
  let r1 :=
    if 0 < minDays.mant then
      (let t := topUpFor status minDays; if t > r0 then t else r0)
    else r0
  if minBalance > 0 ∧ status.depositedAmount < minBalance then
    (let d := minBalance - status.depositedAmount; if d > r1 then d else r1)
  else r1

/-- The ceiling guard `maxTopUp != null && requiredTopUp > maxTopUp`
(run.mjs lines 125 and 212). -/
def ceilingHit (maxTopUp : Option Int) (required : Int) : Bool :=
  match maxTopUp with
  | some m => required > m
  | none => false

/-- The `compute` phase (run.mjs lines 74-82): stat the target path, pack
it into a CAR, write the `root_cid` and `car_path` outputs and return. -/
def computePhase (p : ProcEnv) (o : Oracle) : List Event × MainResult :=
  match o.fsStat with
  | Except.error _ => ([Event.statPath], MainResult.thrown)
  | Except.ok _ =>
    match o.pack with
    | Except.error _ => ([Event.statPath, Event.pack], MainResult.thrown)
    | Except.ok pr =>
      ([Event.statPath, Event.pack] ++
         outputEvents p.githubOutput [("root_cid", pr.2), ("car_path", pr.1)],
       MainResult.ok)

/-- Tail of the from-cache validation block: `validatePaymentSetup` against
the read CAR size (run.mjs line 136).  The Bool is whether the `try` block
completed without throwing. -/
def fromCacheValidateCapacity (o : Oracle) (size : Nat) (t : List Event) :
    List Event × Bool :=
  match o.validateSetup size with
  | Except.error _ => (t ++ [Event.validateCapacity size], false)
  | Except.ok _ => (t ++ [Event.validateCapacity size], true)

/-- The `try` block of the from-cache phase (run.mjs lines 105-137): read
the prepared CAR, set up the service, check allowances, fetch status, apply
the top-up policy (throwing inside the `try` when the ceiling is exceeded),
then validate capacity.  The Bool is whether the block completed without
throwing. -/
def fromCacheTryBlock (o : Oracle) (minDays : JSFinite) (minBalance : Int)
    (maxTopUp : Option Int) : List Event × Bool :=
  match o.readCar with
  | Except.error _ => ([Event.readCar], false)
  | Except.ok size =>
  match o.initSynapse with
  | Except.error _ => ([Event.readCar, Event.initSynapse], false)
  | Except.ok _ =>
  match o.checkAllowances with
  | Except.error _ => ([Event.readCar, Event.initSynapse, Event.checkAllowances], false)
  | Except.ok _ =>
  match o.status1 with
  | Except.error _ =>
      ([Event.readCar, Event.initSynapse, Event.checkAllowances, Event.fetchStatus], false)
  | Except.ok st =>
    let pre := [Event.readCar, Event.initSynapse, Event.checkAllowances, Event.fetchStatus]
    let required := requiredTopUpOf o.topUpFor st minDays minBalance
    if required > 0 then
      if ceilingHit maxTopUp required then (pre, false)
      else
        match o.deposit required with
        | Except.error _ => (pre ++ [Event.deposit required], false)
        | Except.ok _ =>
        match o.status2 with
        | Except.error _ => (pre ++ [Event.deposit required, Event.fetchStatus], false)
        | Except.ok _ =>
          fromCacheValidateCapacity o size (pre ++ [Event.deposit required, Event.fetchStatus])
    else fromCacheValidateCapacity o size pre

/-- The `from-cache` phase (run.mjs lines 85-182): read the cached metadata
record, write all outputs from it plus the reuse tag, re-validate funding
inside a `try`/`catch`/`finally` (warning on failure, always releasing the
service handle), mirror the metadata into the standard cache location, and
append a summary.  `cacheDir` being absent makes the `join` call throw. -/
def fromCachePhase (p : ProcEnv) (o : Oracle) (minDays : JSFinite) (minBalance : Int)
    (maxTopUp : Option Int) : List Event × MainResult :=
  let fromArtifact := jsToLower (p.fromArtifact.getD "") == "true"
  match p.cacheDir with
  | none => ([], MainResult.thrown)
  | some cacheDir =>
    let metaPath := joinPath cacheDir "upload.json"
    match o.readMeta with
    | Except.error _ => ([Event.readMeta], MainResult.thrown)
    | Except.ok meta =>
      let outs := outputEvents p.githubOutput
        [("root_cid", meta.rootCid), ("data_set_id", meta.dataSetId),
         ("piece_cid", meta.pieceCid), ("provider_id", metaProviderId meta),
         ("provider_name", metaProviderName meta), ("car_path", meta.carPath),
         ("metadata_path", metaPath),
         ("upload_status", if fromArtifact then "reused-artifact" else "reused-cache")]
      let v := fromCacheTryBlock o minDays minBalance maxTopUp
      let vt := if v.2 then v.1 else v.1 ++ [Event.warn]
      let t := [Event.readMeta] ++ outs ++ vt ++ [Event.cleanup] ++ [Event.mirrorCache] ++
        (match p.githubStepSummary with | some _ => [Event.summary] | none => [])
      (t, MainResult.ok)

/-- CAR preparation of the upload phase (run.mjs lines 225-234): use the
prepared CAR path and root when both are supplied, otherwise stat and pack
inline.  Returns the root CID string, or `Except.error` for a throw. -/
def uploadPack (p : ProcEnv) (o : Oracle) : List Event × Except Unit String :=
  let preparedCar := p.preparedCarPath.getD ""
  let preparedRoot := p.preparedRootCid.getD ""
  if preparedCar = "" ∨ preparedRoot = "" then
    match o.fsStat with
    | Except.error _ => ([Event.statPath], Except.error ())
    | Except.ok _ =>
      match o.pack with
      | Except.error _ => ([Event.statPath, Event.pack], Except.error ())
      | Except.ok pr => ([Event.statPath, Event.pack], Except.ok pr.2)
  else ([], Except.ok preparedRoot)

/-- Tail of the upload phase (run.mjs lines 237-341): read the CAR bytes,
validate payment capacity for the actual size, create the storage context,
upload, write the artifact directory / metadata / cache mirror, write all
outputs including `upload_status=uploaded`, append the summary, and release
the service handle. -/
def uploadFinish (p : ProcEnv) (o : Oracle) (rootCidStr : String) :
    List Event × MainResult :=
  match o.readCar with
  | Except.error _ => ([Event.readCar], MainResult.thrown)
  | Except.ok size =>
  match o.validateSetup size with
  | Except.error _ => ([Event.readCar, Event.validateCapacity size], MainResult.thrown)
  | Except.ok _ =>
  match o.createStorage with
  | Except.error _ =>
      ([Event.readCar, Event.validateCapacity size, Event.createStorage], MainResult.thrown)
  | Except.ok pinfo =>
  match o.uploadCall with
  | Except.error _ =>
      ([Event.readCar, Event.validateCapacity size, Event.createStorage, Event.uploadCall],
       MainResult.thrown)
  | Except.ok res =>
    let pre := [Event.readCar, Event.validateCapacity size, Event.createStorage,
      Event.uploadCall, Event.mkdirArtifacts]
    match o.copyCar with
    | Except.error _ => (pre ++ [Event.copyCar], MainResult.thrown)
    | Except.ok _ =>
    match o.writeMetadata with
    | Except.error _ => (pre ++ [Event.copyCar, Event.writeMetadata], MainResult.thrown)
    | Except.ok _ =>
      let artifactDir := joinPath (workspaceOf p) "filecoin-pin-artifacts"
      let outs := outputEvents p.githubOutput
        [("root_cid", rootCidStr), ("data_set_id", res.dataSetId),
         ("piece_cid", res.pieceCid), ("provider_id", providerIdOf pinfo),
         ("provider_name", providerNameOf pinfo),
         ("car_path", joinPath artifactDir "upload.car"),
         ("metadata_path", joinPath artifactDir "upload.json"),
         ("upload_status", "uploaded")]
      let t := pre ++ [Event.copyCar, Event.writeMetadata, Event.mirrorCache] ++ outs ++
        (match p.githubStepSummary with | some _ => [Event.summary] | none => []) ++
        [Event.cleanup]
      match o.cleanupOk with
      | Except.error _ => (t, MainResult.thrown)
      | Except.ok _ => (t, MainResult.ok)

/-- Continuation of the upload phase after the top-up policy: CAR
preparation followed by the upload tail. -/
def uploadAfterTopUp (p : ProcEnv) (o : Oracle) (t : List Event) :
    List Event × MainResult :=
  let pk := uploadPack p o
  match pk.2 with
  | Except.error _ => (t ++ pk.1, MainResult.thrown)
  | Except.ok root =>
    let fin := uploadFinish p o root
    (t ++ pk.1 ++ fin.1, fin.2)

/-- The upload (or default single) phase (run.mjs lines 185-341): set up
the service, check allowances, fetch payment status, apply the top-up
policy — exiting the process directly with status 1 when the ceiling is
exceeded, otherwise depositing and re-fetching status when a top-up is
required — then prepare the CAR and finish the upload. -/
def uploadPhase (p : ProcEnv) (o : Oracle) (minDays : JSFinite) (minBalance : Int)
    (maxTopUp : Option Int) : List Event × MainResult :=
  match o.initSynapse with
  | Except.error _ => ([Event.initSynapse], MainResult.thrown)
  | Except.ok _ =>
  match o.checkAllowances with
  | Except.error _ => ([Event.initSynapse, Event.checkAllowances], MainResult.thrown)
  | Except.ok _ =>
  match o.status1 with
  | Except.error _ =>
      ([Event.initSynapse, Event.checkAllowances, Event.fetchStatus], MainResult.thrown)
  | Except.ok st =>
    let pre := [Event.initSynapse, Event.checkAllowances, Event.fetchStatus]
    let required := requiredTopUpOf o.topUpFor st minDays minBalance
    if required > 0 then
      if ceilingHit maxTopUp required then (pre, MainResult.exited 1)
      else
        match o.deposit required with
        | Except.error _ => (pre ++ [Event.deposit required], MainResult.thrown)
        | Except.ok _ =>
        match o.status2 with
        | Except.error _ =>
            (pre ++ [Event.deposit required, Event.fetchStatus], MainResult.thrown)
        | Except.ok _ =>
          uploadAfterTopUp p o (pre ++ [Event.deposit required, Event.fetchStatus])
    else uploadAfterTopUp p o pre

/-- The body of `main` (run.mjs lines 34-342): input resolution, the
required-credential and token guards, numeric parsing (a `parseUnits` throw
propagates), then dispatch on the phase flag. -/
def runMain (env : Env) (o : Oracle) : List Event × MainResult :=
  let phase := phaseOf env
  let privateKey := getInput env "privateKey" ""
  if privateKey = "" then ([], MainResult.exited 1)
  else
    match minBalanceParsed env with
    | none => ([], MainResult.thrown)
    | some minBalance =>
      match maxTopUpParsed env with
      | none => ([], MainResult.thrown)
      | some maxTopUp =>
        if tokenFails env then ([], MainResult.exited 1)
        else if phase = "compute" then computePhase env.proc o
        else if phase = "from-cache" then
          fromCachePhase env.proc o (minDaysOf env) minBalance maxTopUp
        else uploadPhase env.proc o (minDaysOf env) minBalance maxTopUp

/-- One whole process run (run.mjs lines 344-352): `main()` with the
top-level `.catch` that logs, releases the service handle and exits 1 on an
uncaught error.  A direct `process.exit` inside `main` bypasses the
handler. -/
def runProcess (env : Env) (o : Oracle) : RunResult :=
  match runMain env o with
  | (t, MainResult.ok) => RunResult.mk t 0 ExitPath.success
  | (t, MainResult.thrown) => RunResult.mk (t ++ [Event.cleanup]) 1 ExitPath.caughtError
  | (t, MainResult.exited c) => RunResult.mk t c ExitPath.directExit

/-- Lookup-table form of an `INPUT_*` environment. -/
def inputsOf (l : List (String × String)) : String → Option String :=
  fun k => (l.find? (fun kv => kv.1 == k)).map (fun kv => kv.2)

/-- `byDays` of the spec: the duration-based top-up branch, zero when
`minDays = 0`. -/
def byDaysOf (topUpFor : PaymentStatus → JSFinite → Int) (status : PaymentStatus)
    (minDays : JSFinite) : Int :=
  if 0 < minDays.mant then topUpFor status minDays else 0

/-- `byBalance` of the spec: the minimum-balance shortfall, zero when the
balance constraint is unset or already satisfied. -/
def byBalanceOf (status : PaymentStatus) (minBalance : Int) : Int :=
  if minBalance > 0 ∧ status.depositedAmount < minBalance then
    minBalance - status.depositedAmount
  else 0

/-- Recognizes a `deposit` event. -/
def isDepositEvent : Event → Bool
  | Event.deposit _ => true
  | _ => false

/-- Recognizes a `fetchStatus` event. -/
def isFetchEvent : Event → Bool
  | Event.fetchStatus => true
  | _ => false

/-- Recognizes an event touched by the top-up policy (deposit or status
re-fetch). -/
def isTopUpEvent (e : Event) : Bool := isDepositEvent e || isFetchEvent e

/-- C2: for every payment status and non-negative constraint-derived
amounts `byDays` and `byBalance`, the required top-up computed by the
policy fold equals `max byDays byBalance`, never their sum, and is zero
when both constraints are already satisfied. -/
theorem claim_C2 (topUpFor : PaymentStatus → JSFinite → Int) (status : PaymentStatus)
    (minDays : JSFinite) (minBalance : Int)
    (hd : 0 ≤ byDaysOf topUpFor status minDays) :
    requiredTopUpOf topUpFor status minDays minBalance
        = max (byDaysOf topUpFor status minDays) (byBalanceOf status minBalance)
      ∧ (byDaysOf topUpFor status minDays = 0 → byBalanceOf status minBalance = 0 →
          requiredTopUpOf topUpFor status minDays minBalance = 0) := by
  have hmax : requiredTopUpOf topUpFor status minDays minBalance
      = max (byDaysOf topUpFor status minDays) (byBalanceOf status minBalance) := by
    simp only [requiredTopUpOf, byDaysOf, byBalanceOf] at hd ⊢
    split_ifs at hd ⊢ <;> omega
  exact ⟨hmax, fun h1 h2 => by rw [hmax, h1, h2]; rfl⟩

/-- Witness for C2 at a concrete status and pair of amounts. -/
theorem claim_C2_witness :
    0 ≤ byDaysOf (fun _ _ => 3) (PaymentStatus.mk 0) (JSFinite.mk 5 0)
      ∧ (requiredTopUpOf (fun _ _ => 3) (PaymentStatus.mk 0) (JSFinite.mk 5 0) 2
          = max (byDaysOf (fun _ _ => 3) (PaymentStatus.mk 0) (JSFinite.mk 5 0))
              (byBalanceOf (PaymentStatus.mk 0) 2)
        ∧ (byDaysOf (fun _ _ => 3) (PaymentStatus.mk 0) (JSFinite.mk 5 0) = 0 →
            byBalanceOf (PaymentStatus.mk 0) 2 = 0 →
            requiredTopUpOf (fun _ _ => 3) (PaymentStatus.mk 0) (JSFinite.mk 5 0) 2 = 0)) :=
  ⟨by decide, claim_C2 (fun _ _ => 3) (PaymentStatus.mk 0) (JSFinite.mk 5 0) 2 (by decide)⟩

/-- An otherwise-empty non-input process environment. -/
def procEmpty : ProcEnv :=
  ProcEnv.mk none none "/work" none none none none none none

/-- Environment whose only input variable is a present-but-empty
`INPUT_MINDAYS`. -/
def envEmptyMinDays : Env :=
  Env.mk (inputsOf [("INPUT_MINDAYS", "")]) procEmpty

/-- Counterexample to C7 as stated: with `INPUT_MINDAYS` present but
empty, the Input Resolver returns the empty string, not the documented
default `"10"`, and the resulting `minDays` is `0`, not `10`. -/
theorem claim_C7_cex :
    envEmptyMinDays.inputVars "INPUT_MINDAYS" = some ""
      ∧ getInput envEmptyMinDays "minDays" "10" = ""
      ∧ jsfToRat (minDaysOf envEmptyMinDays) = 0 := by
  refine ⟨by decide, by decide, ?_⟩
  have h : minDaysOf envEmptyMinDays = JSFinite.mk 0 0 := by decide
  rw [h]
  norm_num [jsfToRat]

/-- C7 (amended): the Input Resolver returns the trimmed value of
`INPUT_<NAME_UPPERCASED>` and substitutes the documented default only when
the variable is absent; a present-but-empty (or whitespace-only) value
yields the empty string, so an absent `minDays` yields `10` while an empty
`minDays` yields `""` (coerced to `0` downstream) and an empty `path`
yields `""` rather than the default directory. -/
theorem claim_C7 :
    (∀ env : Env, env.inputVars "INPUT_MINDAYS" = none →
        getInput env "minDays" "10" = "10" ∧ jsfToRat (minDaysOf env) = 10)
      ∧ (∀ (env : Env) (s : String),
          env.inputVars "INPUT_MINDAYS" = some s → jsTrim s = "" →
          getInput env "minDays" "10" = "" ∧ jsfToRat (minDaysOf env) = 0)
      ∧ (∀ env : Env, env.inputVars "INPUT_PATH" = some "" →
          getInput env "path" "dist" = "") := by
  have hmindays : ("INPUT_" ++ jsToUpper "minDays") = "INPUT_MINDAYS" := by decide
  have hpath : ("INPUT_" ++ jsToUpper "path") = "INPUT_PATH" := by decide
  refine ⟨?_, ?_, ?_⟩
  · intro env habs
    have hg : getInput env "minDays" "10" = "10" := by
      unfold getInput
      rw [hmindays, habs]
      decide
    refine ⟨hg, ?_⟩
    have hrep : minDaysOf env = JSFinite.mk 10 0 := by
      unfold minDaysOf
      rw [hg]
      decide
    rw [hrep]
    norm_num [jsfToRat]
  · intro env s hpres htrim
    have hg : getInput env "minDays" "10" = "" := by
      unfold getInput
      rw [hmindays, hpres]
      exact htrim
    refine ⟨hg, ?_⟩
    have hrep : minDaysOf env = JSFinite.mk 0 0 := by
      unfold minDaysOf
      rw [hg]
      decide
    rw [hrep]
    norm_num [jsfToRat]
  · intro env hpres
    unfold getInput
    rw [hpath, hpres]
    decide

/-- Witness for C7 at concrete environments: `minDays` absent, `minDays`
present but whitespace-only, and `path` present but empty. -/
theorem claim_C7_witness :
    ((Env.mk (inputsOf []) procEmpty).inputVars "INPUT_MINDAYS" = none
      ∧ getInput (Env.mk (inputsOf []) procEmpty) "minDays" "10" = "10"
      ∧ jsfToRat (minDaysOf (Env.mk (inputsOf []) procEmpty)) = 10)
    ∧ ((Env.mk (inputsOf [("INPUT_MINDAYS", " ")]) procEmpty).inputVars
          "INPUT_MINDAYS" = some " "
      ∧ jsTrim " " = ""
      ∧ getInput (Env.mk (inputsOf [("INPUT_MINDAYS", " ")]) procEmpty) "minDays" "10" = "")
    ∧ ((Env.mk (inputsOf [("INPUT_PATH", "")]) procEmpty).inputVars "INPUT_PATH" = some ""
      ∧ getInput (Env.mk (inputsOf [("INPUT_PATH", "")]) procEmpty) "path" "dist" = "") := by
  refine ⟨⟨by decide, ?_, ?_⟩, ⟨by decide, by decide, ?_⟩, ⟨by decide, ?_⟩⟩
  · exact (claim_C7.1 (Env.mk (inputsOf []) procEmpty) (by decide)).1
  · exact (claim_C7.1 (Env.mk (inputsOf []) procEmpty) (by decide)).2
  · exact (claim_C7.2.1 (Env.mk (inputsOf [("INPUT_MINDAYS", " ")]) procEmpty) " "
      (by decide) (by decide)).1
  · exact claim_C7.2.2 (Env.mk (inputsOf [("INPUT_PATH", "")]) procEmpty) (by decide)

/-- When the credential, parses, token and phase guards all pass toward the
upload branch, `main` is exactly the upload phase. -/
theorem runMain_eq_upload (env : Env) (o : Oracle) (mb : Int) (mt : Option Int)
    (hpk : getInput env "privateKey" "" ≠ "")
    (hmb : minBalanceParsed env = some mb)
    (hmt : maxTopUpParsed env = some mt)
    (htok : tokenFails env = false)
    (hph1 : phaseOf env ≠ "compute")
    (hph2 : phaseOf env ≠ "from-cache") :
    runMain env o = uploadPhase env.proc o (minDaysOf env) mb mt := by
  simp [runMain, hpk, hmb, hmt, htok, hph1, hph2]

/-- When the guards pass and the phase flag is `from-cache`, `main` is
exactly the from-cache phase. -/
theorem runMain_eq_fromCache (env : Env) (o : Oracle) (mb : Int) (mt : Option Int)
    (hpk : getInput env "privateKey" "" ≠ "")
    (hmb : minBalanceParsed env = some mb)
    (hmt : maxTopUpParsed env = some mt)
    (htok : tokenFails env = false)
    (hph : phaseOf env = "from-cache") :
    runMain env o = fromCachePhase env.proc o (minDaysOf env) mb mt := by
  have hne : phaseOf env ≠ "compute" := by rw [hph]; decide
  simp [runMain, hpk, hmb, hmt, htok, hne, hph]

/-- A sample cached metadata record. -/
def metaSample : Meta :=
  Meta.mk "calibration" "bafyroot" "77" "bafypiece" "/cache/upload.car"
    "https://gw.example/piece" (some (MetaProvider.mk "12" "prov"))

/-- An oracle on which every external call succeeds, the account needs no
top-up, and the CAR is five bytes. -/
def oracleAllOk : Oracle :=
  Oracle.mk (Except.ok true) (Except.ok ("/tmp/out.car", "bafyroot"))
    (Except.ok ()) (Except.ok ()) (Except.ok (PaymentStatus.mk 0)) (fun _ _ => 0)
    (fun _ => Except.ok ()) (Except.ok (PaymentStatus.mk 0)) (Except.ok 5)
    (fun _ => Except.ok ()) (Except.ok (ProviderInfo.mk (some "12") (some "prov") none))
    (Except.ok (UploadResult.mk "bafypiece" "3" "77")) (Except.ok ()) (Except.ok ())
    (Except.ok ()) (Except.ok metaSample)

/-- Single-phase environment with a negative configured ceiling and no
constraint producing a positive top-up. -/
def envNegCeiling : Env :=
  Env.mk (inputsOf [("INPUT_PRIVATEKEY", "k"), ("INPUT_MINDAYS", "0"),
    ("INPUT_MAXTOPUP", "-1")]) procEmpty

/-- Counterexample to C1 as stated: with ceiling `-1` the computed required
top-up `0` exceeds the ceiling, yet the run completes with exit status 0
(the ceiling is only consulted when the required top-up is strictly
positive). -/
theorem claim_C1_cex :
    maxTopUpParsed envNegCeiling = some (some (-(10 ^ 18 : Int)))
      ∧ requiredTopUpOf oracleAllOk.topUpFor (PaymentStatus.mk 0)
          (minDaysOf envNegCeiling) 0 = 0
      ∧ ceilingHit (some (-(10 ^ 18 : Int)))
          (requiredTopUpOf oracleAllOk.topUpFor (PaymentStatus.mk 0)
            (minDaysOf envNegCeiling) 0) = true
      ∧ oracleAllOk.status1 = Except.ok (PaymentStatus.mk 0)
      ∧ (runProcess envNegCeiling oracleAllOk).exitCode = 0 := by
  refine ⟨by decide, by decide, by decide, rfl, by decide⟩

/-- C1 (amended): in the upload (or default single) phase with a configured
ceiling, when the computed required top-up is strictly positive and exceeds
the ceiling, the process exits with status 1 and the deposit function is
called zero times — the ceiling check precedes any balance-mutating call. -/
theorem claim_C1 (env : Env) (o : Oracle) (st : PaymentStatus) (mb m : Int)
    (hpk : getInput env "privateKey" "" ≠ "")
    (hmb : minBalanceParsed env = some mb)
    (hmt : maxTopUpParsed env = some (some m))
    (htok : tokenFails env = false)
    (hph1 : phaseOf env ≠ "compute")
    (hph2 : phaseOf env ≠ "from-cache")
    (hst : o.status1 = Except.ok st)
    (hpos : 0 < requiredTopUpOf o.topUpFor st (minDaysOf env) mb)
    (hceil : m < requiredTopUpOf o.topUpFor st (minDaysOf env) mb) :
    (runProcess env o).exitCode = 1
      ∧ (runProcess env o).trace.countP isDepositEvent = 0 := by
  have hrm := runMain_eq_upload env o mb (some m) hpk hmb hmt htok hph1 hph2
  unfold runProcess
  rw [hrm]
  unfold uploadPhase
  cases hi : o.initSynapse with
  | error e => simp [List.countP_cons, isDepositEvent]
  | ok u =>
    cases ha : o.checkAllowances with
    | error e => simp [List.countP_cons, isDepositEvent]
    | ok v =>
      rw [hst]
      simp only [if_pos hpos]
      have hch : ceilingHit (some m) (requiredTopUpOf o.topUpFor st (minDaysOf env) mb)
          = true := by
        simp [ceilingHit, hceil]
      simp [hch, List.countP_cons, isDepositEvent]

/-- Environment asking for `minBalance` 5 USDFC with ceiling 2 USDFC. -/
def envCeil2 : Env :=
  Env.mk (inputsOf [("INPUT_PRIVATEKEY", "k"), ("INPUT_MINDAYS", "0"),
    ("INPUT_MINBALANCE", "5"), ("INPUT_MAXTOPUP", "2")]) procEmpty

/-- Oracle whose account holds 2 USDFC and needs no duration top-up. -/
def oracleLowBalance : Oracle :=
  Oracle.mk (Except.ok true) (Except.ok ("/tmp/out.car", "bafyroot"))
    (Except.ok ()) (Except.ok ()) (Except.ok (PaymentStatus.mk (2 * 10 ^ 18)))
    (fun _ _ => 0) (fun _ => Except.ok ()) (Except.ok (PaymentStatus.mk (2 * 10 ^ 18)))
    (Except.ok 5) (fun _ => Except.ok ())
    (Except.ok (ProviderInfo.mk (some "12") (some "prov") none))
    (Except.ok (UploadResult.mk "bafypiece" "3" "77")) (Except.ok ()) (Except.ok ())
    (Except.ok ()) (Except.ok metaSample)

/-- Witness for C1: deposited 2, `minBalance` 5 and ceiling 2 make the
required top-up 3 USDFC, above the ceiling: exit 1 with zero deposits. -/
theorem claim_C1_witness :
    0 < requiredTopUpOf oracleLowBalance.topUpFor (PaymentStatus.mk (2 * 10 ^ 18))
        (minDaysOf envCeil2) (5 * 10 ^ 18)
      ∧ (2 * 10 ^ 18 : Int) < requiredTopUpOf oracleLowBalance.topUpFor
          (PaymentStatus.mk (2 * 10 ^ 18)) (minDaysOf envCeil2) (5 * 10 ^ 18)
      ∧ (runProcess envCeil2 oracleLowBalance).exitCode = 1
      ∧ (runProcess envCeil2 oracleLowBalance).trace.countP isDepositEvent = 0 :=
  ⟨by decide, by decide,
    (claim_C1 envCeil2 oracleLowBalance (PaymentStatus.mk (2 * 10 ^ 18))
      (5 * 10 ^ 18) (2 * 10 ^ 18) (by decide) (by decide) (by decide) (by decide)
      (by decide) (by decide) rfl (by decide) (by decide)).1,
    (claim_C1 envCeil2 oracleLowBalance (PaymentStatus.mk (2 * 10 ^ 18))
      (5 * 10 ^ 18) (2 * 10 ^ 18) (by decide) (by decide) (by decide) (by decide)
      (by decide) (by decide) rfl (by decide) (by decide)).2⟩

/-- A non-top-up event is not a deposit. -/
theorem isDeposit_false_of_topup (e : Event) (h : isTopUpEvent e = false) :
    isDepositEvent e = false := by
  unfold isTopUpEvent at h
  exact (Bool.or_eq_false_iff.mp h).1

/-- A non-top-up event is not a status fetch. -/
theorem isFetch_false_of_topup (e : Event) (h : isTopUpEvent e = false) :
    isFetchEvent e = false := by
  unfold isTopUpEvent at h
  exact (Bool.or_eq_false_iff.mp h).2

/-- Output writes are neither deposits nor status fetches. -/
theorem isTopUpEvent_outputEvents (gho : Option String) (kvs : List (String × String)) :
    ∀ e ∈ outputEvents gho kvs, isTopUpEvent e = false := by
  intro e he
  cases gho with
  | none => simp [outputEvents] at he
  | some f =>
    simp only [outputEvents, List.mem_map] at he
    obtain ⟨kv, _, rfl⟩ := he
    rfl

/-- CAR preparation produces no deposit or status-fetch events. -/
theorem uploadPack_no_topup (p : ProcEnv) (o : Oracle) :
    ∀ e ∈ (uploadPack p o).1, isTopUpEvent e = false := by
  simp only [uploadPack]
  by_cases hc : (p.preparedCarPath.getD "" = "" ∨ p.preparedRootCid.getD "" = "")
  · rw [if_pos hc]
    cases hf : o.fsStat with
    | error err => simp [isTopUpEvent, isDepositEvent, isFetchEvent]
    | ok b =>
      cases hp : o.pack with
      | error err => simp [isTopUpEvent, isDepositEvent, isFetchEvent]
      | ok pr => simp [isTopUpEvent, isDepositEvent, isFetchEvent]
  · rw [if_neg hc]
    simp

/-- The upload tail after the top-up policy produces no deposit or
status-fetch events. -/
theorem uploadFinish_no_topup (p : ProcEnv) (o : Oracle) (root : String) :
    ∀ e ∈ (uploadFinish p o root).1, isTopUpEvent e = false := by
  simp only [uploadFinish]
  cases h1 : o.readCar with
  | error err => simp [isTopUpEvent, isDepositEvent, isFetchEvent]
  | ok size =>
  simp only [h1]
  cases h2 : o.validateSetup size with
  | error err => simp [h2, isTopUpEvent, isDepositEvent, isFetchEvent]
  | ok u2 =>
  simp only [h2]
  cases h3 : o.createStorage with
  | error err => simp [h3, isTopUpEvent, isDepositEvent, isFetchEvent]
  | ok pinfo =>
  simp only [h3]
  cases h4 : o.uploadCall with
  | error err => simp [h4, isTopUpEvent, isDepositEvent, isFetchEvent]
  | ok res =>
  simp only [h4]
  cases h5 : o.copyCar with
  | error err => simp [h5, isTopUpEvent, isDepositEvent, isFetchEvent]
  | ok u5 =>
  simp only [h5]
  cases h6 : o.writeMetadata with
  | error err => simp [h6, isTopUpEvent, isDepositEvent, isFetchEvent]
  | ok u6 =>
  simp only [h6]
  cases h7 : o.cleanupOk with
  | error err =>
    simp only [h7]
    cases hs : p.githubStepSummary <;> simp only [hs] <;> intro e he <;>
      simp only [List.append_assoc, List.mem_append, List.mem_cons, List.not_mem_nil,
        or_false, false_or] at he <;>
      casesm* _ ∨ _ <;>
      first
        | (rename_i hmem; exact isTopUpEvent_outputEvents _ _ e hmem)
        | simp_all [isTopUpEvent, isDepositEvent, isFetchEvent]
  | ok u7 =>
    simp only [h7]
    cases hs : p.githubStepSummary <;> simp only [hs] <;> intro e he <;>
      simp only [List.append_assoc, List.mem_append, List.mem_cons, List.not_mem_nil,
        or_false, false_or] at he <;>
      casesm* _ ∨ _ <;>
      first
        | (rename_i hmem; exact isTopUpEvent_outputEvents _ _ e hmem)
        | simp_all [isTopUpEvent, isDepositEvent, isFetchEvent]

/-- The post-policy part of the upload phase only appends events that are
neither deposits nor status fetches. -/
theorem uploadAfterTopUp_trace (p : ProcEnv) (o : Oracle) (t0 : List Event) :
    ∃ rest, (uploadAfterTopUp p o t0).1 = t0 ++ rest
      ∧ ∀ e ∈ rest, isTopUpEvent e = false := by
  simp only [uploadAfterTopUp]
  cases hpk : (uploadPack p o).2 with
  | error u =>
    exact ⟨(uploadPack p o).1, rfl, fun e he => uploadPack_no_topup p o e he⟩
  | ok root =>
    refine ⟨(uploadPack p o).1 ++ (uploadFinish p o root).1, by simp, fun e he => ?_⟩
    rcases List.mem_append.mp he with h | h
    · exact uploadPack_no_topup p o e h
    · exact uploadFinish_no_topup p o root e h

/-- The process trace is the `main` trace, possibly with the error
handler's final cleanup call appended. -/
theorem runProcess_trace_cases (env : Env) (o : Oracle) :
    (runProcess env o).trace = (runMain env o).1
      ∨ (runProcess env o).trace = (runMain env o).1 ++ [Event.cleanup] := by
  unfold runProcess
  cases h : runMain env o with
  | mk t r => cases r <;> simp [h]

/-- A list of non-top-up events has no deposits. -/
theorem countP_deposit_zero (l : List Event) (h : ∀ e ∈ l, isTopUpEvent e = false) :
    l.countP isDepositEvent = 0 :=
  List.countP_eq_zero.mpr fun e he => by simp [isDeposit_false_of_topup e (h e he)]

/-- A list of non-top-up events has no status fetches. -/
theorem countP_fetch_zero (l : List Event) (h : ∀ e ∈ l, isTopUpEvent e = false) :
    l.countP isFetchEvent = 0 :=
  List.countP_eq_zero.mpr fun e he => by simp [isFetch_false_of_topup e (h e he)]

/-- Shape of the upload-phase trace around the top-up policy: with the
set-up calls succeeding, a positive required top-up within the ceiling
yields the deposit followed immediately by the status re-fetch and then
only non-top-up events; a zero required top-up yields the three set-up
events followed by only non-top-up events. -/
theorem uploadPhase_trace_top (p : ProcEnv) (o : Oracle) (md : JSFinite) (mb : Int)
    (mt : Option Int) (st : PaymentStatus)
    (hinit : o.initSynapse = Except.ok ())
    (hallow : o.checkAllowances = Except.ok ())
    (hst : o.status1 = Except.ok st) :
    (0 < requiredTopUpOf o.topUpFor st md mb →
      ceilingHit mt (requiredTopUpOf o.topUpFor st md mb) = false →
      o.deposit (requiredTopUpOf o.topUpFor st md mb) = Except.ok () →
      ∃ rest, (uploadPhase p o md mb mt).1
          = [Event.initSynapse, Event.checkAllowances, Event.fetchStatus,
             Event.deposit (requiredTopUpOf o.topUpFor st md mb), Event.fetchStatus] ++ rest
        ∧ ∀ e ∈ rest, isTopUpEvent e = false)
    ∧ (requiredTopUpOf o.topUpFor st md mb = 0 →
      ∃ rest, (uploadPhase p o md mb mt).1
          = [Event.initSynapse, Event.checkAllowances, Event.fetchStatus] ++ rest
        ∧ ∀ e ∈ rest, isTopUpEvent e = false) := by
  constructor
  · intro hpos hceil hdep
    simp only [uploadPhase, hinit, hallow, hst, if_pos hpos, hceil, Bool.false_eq_true,
      if_false, hdep]
    cases hs2 : o.status2 with
    | error err => exact ⟨[], by simp, by simp⟩
    | ok st2 =>
      obtain ⟨rest, hr, hall⟩ := uploadAfterTopUp_trace p o
        ([Event.initSynapse, Event.checkAllowances, Event.fetchStatus] ++
          [Event.deposit (requiredTopUpOf o.topUpFor st md mb), Event.fetchStatus])
      refine ⟨rest, ?_, hall⟩
      rw [hr]
      simp
  · intro hzero
    have hnpos : ¬ (0 < requiredTopUpOf o.topUpFor st md mb) := by omega
    simp only [uploadPhase, hinit, hallow, hst, if_neg hnpos]
    obtain ⟨rest, hr, hall⟩ := uploadAfterTopUp_trace p o
      [Event.initSynapse, Event.checkAllowances, Event.fetchStatus]
    exact ⟨rest, hr, hall⟩

/-- C3: in the upload (or default single) phase, when the computed required
top-up is strictly positive and within the (possibly unset) ceiling, the
run performs exactly one deposit call, for exactly that amount, immediately
followed by a status re-fetch; when the computed required top-up is zero,
no deposit call occurs and no re-fetch occurs (the single status fetch is
the initial one). -/
theorem claim_C3 (env : Env) (o : Oracle) (st : PaymentStatus) (mb : Int) (mt : Option Int)
    (hpk : getInput env "privateKey" "" ≠ "")
    (hmb : minBalanceParsed env = some mb)
    (hmt : maxTopUpParsed env = some mt)
    (htok : tokenFails env = false)
    (hph1 : phaseOf env ≠ "compute")
    (hph2 : phaseOf env ≠ "from-cache")
    (hinit : o.initSynapse = Except.ok ())
    (hallow : o.checkAllowances = Except.ok ())
    (hst : o.status1 = Except.ok st) :
    (0 < requiredTopUpOf o.topUpFor st (minDaysOf env) mb →
      ceilingHit mt (requiredTopUpOf o.topUpFor st (minDaysOf env) mb) = false →
      o.deposit (requiredTopUpOf o.topUpFor st (minDaysOf env) mb) = Except.ok () →
      (runProcess env o).trace.countP isDepositEvent = 1
        ∧ ∃ t1 t2, (runProcess env o).trace
            = t1 ++ [Event.deposit (requiredTopUpOf o.topUpFor st (minDaysOf env) mb),
                Event.fetchStatus] ++ t2)
    ∧ (requiredTopUpOf o.topUpFor st (minDaysOf env) mb = 0 →
      (runProcess env o).trace.countP isDepositEvent = 0
        ∧ (runProcess env o).trace.countP isFetchEvent = 1) := by
  have hrm := runMain_eq_upload env o mb mt hpk hmb hmt htok hph1 hph2
  have htop := uploadPhase_trace_top env.proc o (minDaysOf env) mb mt st hinit hallow hst
  have htr := runProcess_trace_cases env o
  rw [hrm] at htr
  constructor
  · intro hpos hceil hdep
    obtain ⟨rest, hshape, hall⟩ := htop.1 hpos hceil hdep
    have hdall : rest.countP isDepositEvent = 0 := countP_deposit_zero rest hall
    rcases htr with h | h <;> rw [h, hshape]
    · constructor
      · simp [List.countP_append, List.countP_cons, hdall, isDepositEvent]
      · exact ⟨[Event.initSynapse, Event.checkAllowances, Event.fetchStatus], rest, by simp⟩
    · constructor
      · simp [List.countP_append, List.countP_cons, hdall, isDepositEvent]
      · exact ⟨[Event.initSynapse, Event.checkAllowances, Event.fetchStatus],
          rest ++ [Event.cleanup], by simp⟩
  · intro hzero
    obtain ⟨rest, hshape, hall⟩ := htop.2 hzero
    have hdall : rest.countP isDepositEvent = 0 := countP_deposit_zero rest hall
    have hfall : rest.countP isFetchEvent = 0 := countP_fetch_zero rest hall
    rcases htr with h | h <;> rw [h, hshape] <;>
      constructor <;>
        simp [List.countP_append, List.countP_cons, hdall, hfall, isDepositEvent,
          isFetchEvent]

/-- Environment for a plain single-phase run needing a duration top-up. -/
def envTopUp : Env :=
  Env.mk (inputsOf [("INPUT_PRIVATEKEY", "k")]) procEmpty

/-- Oracle whose duration policy asks for a top-up of 3 and on which every
call succeeds. -/
def oracleNeedsTopUp : Oracle :=
  Oracle.mk (Except.ok true) (Except.ok ("/tmp/out.car", "bafyroot"))
    (Except.ok ()) (Except.ok ()) (Except.ok (PaymentStatus.mk 0)) (fun _ _ => 3)
    (fun _ => Except.ok ()) (Except.ok (PaymentStatus.mk 3)) (Except.ok 5)
    (fun _ => Except.ok ()) (Except.ok (ProviderInfo.mk (some "12") (some "prov") none))
    (Except.ok (UploadResult.mk "bafypiece" "3" "77")) (Except.ok ()) (Except.ok ())
    (Except.ok ()) (Except.ok metaSample)

/-- Witness for C3: a run whose duration constraint requires 3 units makes
exactly one deposit, of 3 units, immediately followed by a re-fetch. -/
theorem claim_C3_witness :
    0 < requiredTopUpOf oracleNeedsTopUp.topUpFor (PaymentStatus.mk 0)
        (minDaysOf envTopUp) 0
      ∧ ((runProcess envTopUp oracleNeedsTopUp).trace.countP isDepositEvent = 1
        ∧ ∃ t1 t2, (runProcess envTopUp oracleNeedsTopUp).trace
            = t1 ++ [Event.deposit (requiredTopUpOf oracleNeedsTopUp.topUpFor
                (PaymentStatus.mk 0) (minDaysOf envTopUp) 0), Event.fetchStatus] ++ t2) :=
  ⟨by decide,
    (claim_C3 envTopUp oracleNeedsTopUp (PaymentStatus.mk 0) 0 none
      (by decide) (by decide) (by decide) (by decide) (by decide) (by decide)
      rfl rfl rfl).1 (by decide) (by decide) rfl⟩

/-- An event that is not an output write is never produced by a batch of
output writes. -/
theorem not_output_mem_outputEvents (gho : Option String) (kvs : List (String × String))
    (e : Event) (hne : ∀ n v, e ≠ Event.output n v) : e ∉ outputEvents gho kvs := by
  intro he
  cases gho with
  | none => simp [outputEvents] at he
  | some f =>
    simp only [outputEvents, List.mem_map] at he
    obtain ⟨kv, _, hkv⟩ := he
    exact hne kv.1 kv.2 hkv.symm

/-- The compute phase never creates the storage-service handle. -/
theorem computePhase_no_init (p : ProcEnv) (o : Oracle) :
    Event.initSynapse ∉ (computePhase p o).1 := by
  unfold computePhase
  cases h1 : o.fsStat with
  | error err => simp
  | ok b =>
    cases h2 : o.pack with
    | error err => simp
    | ok pr =>
      intro hmem
      simp only [List.mem_append, List.mem_cons, List.not_mem_nil, or_false] at hmem
      rcases hmem with (h | h) | h
      · exact absurd h (by decide)
      · exact absurd h (by decide)
      · exact not_output_mem_outputEvents _ _ _ (by intro n v h'; cases h') h

/-- A from-cache phase that returns normally has released the service
handle (the `finally` block). -/
theorem fromCachePhase_ok_cleanup (p : ProcEnv) (o : Oracle) (md : JSFinite) (mb : Int)
    (mt : Option Int)
    (h : (fromCachePhase p o md mb mt).2 = MainResult.ok) :
    Event.cleanup ∈ (fromCachePhase p o md mb mt).1 := by
  simp only [fromCachePhase] at h ⊢
  cases hcd : p.cacheDir with
  | none => simp [hcd] at h
  | some d =>
  simp only [hcd] at h ⊢
  cases hm : o.readMeta with
  | error err => simp [hm] at h
  | ok meta =>
  simp only [hm]
  simp [List.mem_append]

/-- An upload tail that returns normally has released the service handle. -/
theorem uploadFinish_ok_cleanup (p : ProcEnv) (o : Oracle) (root : String)
    (h : (uploadFinish p o root).2 = MainResult.ok) :
    Event.cleanup ∈ (uploadFinish p o root).1 := by
  simp only [uploadFinish] at h ⊢
  cases h1 : o.readCar with
  | error err => simp [h1] at h
  | ok size =>
  simp only [h1] at h ⊢
  cases h2 : o.validateSetup size with
  | error err => simp [h2] at h
  | ok u2 =>
  simp only [h2] at h ⊢
  cases h3 : o.createStorage with
  | error err => simp [h3] at h
  | ok pinfo =>
  simp only [h3] at h ⊢
  cases h4 : o.uploadCall with
  | error err => simp [h4] at h
  | ok res =>
  simp only [h4] at h ⊢
  cases h5 : o.copyCar with
  | error err => simp [h5] at h
  | ok u5 =>
  simp only [h5] at h ⊢
  cases h6 : o.writeMetadata with
  | error err => simp [h6] at h
  | ok u6 =>
  simp only [h6] at h ⊢
  cases h7 : o.cleanupOk with
  | error err => simp [h7] at h
  | ok u7 =>
    simp only [h7]
    simp [List.mem_append]

/-- A post-policy upload part that returns normally has released the
service handle. -/
theorem uploadAfterTopUp_ok_cleanup (p : ProcEnv) (o : Oracle) (t0 : List Event)
    (h : (uploadAfterTopUp p o t0).2 = MainResult.ok) :
    Event.cleanup ∈ (uploadAfterTopUp p o t0).1 := by
  simp only [uploadAfterTopUp] at h ⊢
  cases hpk : (uploadPack p o).2 with
  | error u => simp [hpk] at h
  | ok root =>
    simp only [hpk] at h ⊢
    exact List.mem_append_right _ (uploadFinish_ok_cleanup p o root (by simpa using h))

/-- An upload phase that returns normally has released the service handle. -/
theorem uploadPhase_ok_cleanup (p : ProcEnv) (o : Oracle) (md : JSFinite) (mb : Int)
    (mt : Option Int)
    (h : (uploadPhase p o md mb mt).2 = MainResult.ok) :
    Event.cleanup ∈ (uploadPhase p o md mb mt).1 := by
  simp only [uploadPhase] at h ⊢
  cases h1 : o.initSynapse with
  | error err => simp [h1] at h
  | ok u1 =>
  simp only [h1] at h ⊢
  cases h2 : o.checkAllowances with
  | error err => simp [h2] at h
  | ok u2 =>
  simp only [h2] at h ⊢
  cases h3 : o.status1 with
  | error err => simp [h3] at h
  | ok st =>
  simp only [h3] at h ⊢
  by_cases hpos : 0 < requiredTopUpOf o.topUpFor st md mb
  · simp only [if_pos hpos] at h ⊢
    by_cases hch : ceilingHit mt (requiredTopUpOf o.topUpFor st md mb) = true
    · simp [hch] at h
    · simp only [Bool.not_eq_true] at hch
      simp only [hch, Bool.false_eq_true, if_false] at h ⊢
      cases h4 : o.deposit (requiredTopUpOf o.topUpFor st md mb) with
      | error err => simp [h4] at h
      | ok u4 =>
      simp only [h4] at h ⊢
      cases h5 : o.status2 with
      | error err => simp [h5] at h
      | ok st2 =>
      simp only [h5] at h ⊢
      exact uploadAfterTopUp_ok_cleanup p o _ h
  · simp only [if_neg hpos] at h ⊢
    exact uploadAfterTopUp_ok_cleanup p o _ h

/-- When `main` returns normally, a created service handle has been
released before the return. -/
theorem runMain_ok_cleanup (env : Env) (o : Oracle) (t : List Event)
    (h : runMain env o = (t, MainResult.ok))
    (hin : Event.initSynapse ∈ t) :
    Event.cleanup ∈ t := by
  by_cases hpk : getInput env "privateKey" "" = ""
  · unfold runMain at h
    simp [hpk] at h
  · cases hmb : minBalanceParsed env with
    | none => unfold runMain at h; simp [hpk, hmb] at h
    | some mb =>
      cases hmtp : maxTopUpParsed env with
      | none => unfold runMain at h; simp [hpk, hmb, hmtp] at h
      | some mt =>
        by_cases htf : tokenFails env = true
        · unfold runMain at h; simp [hpk, hmb, hmtp, htf] at h
        · simp only [Bool.not_eq_true] at htf
          by_cases hc : phaseOf env = "compute"
          · have h' : computePhase env.proc o = (t, MainResult.ok) := by
              unfold runMain at h
              simpa [hpk, hmb, hmtp, htf, hc] using h
            have h1 : (computePhase env.proc o).1 = t := by rw [h']
            exact absurd (h1.symm ▸ hin) (computePhase_no_init env.proc o)
          · by_cases hf : phaseOf env = "from-cache"
            · have h' : fromCachePhase env.proc o (minDaysOf env) mb mt
                  = (t, MainResult.ok) := by
                unfold runMain at h
                simpa [hpk, hmb, hmtp, htf, hc, hf] using h
              have h1 : (fromCachePhase env.proc o (minDaysOf env) mb mt).1 = t := by
                rw [h']
              have h2 : (fromCachePhase env.proc o (minDaysOf env) mb mt).2
                  = MainResult.ok := by rw [h']
              exact h1 ▸ fromCachePhase_ok_cleanup env.proc o (minDaysOf env) mb mt h2
            · have h' : uploadPhase env.proc o (minDaysOf env) mb mt
                  = (t, MainResult.ok) := by
                unfold runMain at h
                simpa [hpk, hmb, hmtp, htf, hc, hf] using h
              have h1 : (uploadPhase env.proc o (minDaysOf env) mb mt).1 = t := by
                rw [h']
              have h2 : (uploadPhase env.proc o (minDaysOf env) mb mt).2
                  = MainResult.ok := by rw [h']
              exact h1 ▸ uploadPhase_ok_cleanup env.proc o (minDaysOf env) mb mt h2

/-- C4 (amended): on the normal-success and caught-error exit paths the
storage-service handle, once created, is always released before the
process terminates; only a direct `process.exit` inside `main` (the
required-credential, token, and ceiling-violation exits) can end the
process without a release. -/
theorem claim_C4 (env : Env) (o : Oracle)
    (hpath : (runProcess env o).path ≠ ExitPath.directExit)
    (hin : Event.initSynapse ∈ (runProcess env o).trace) :
    Event.cleanup ∈ (runProcess env o).trace := by
  rcases hmain : runMain env o with ⟨t, r⟩
  cases r with
  | ok =>
    have ht : (runProcess env o).trace = t := by unfold runProcess; rw [hmain]
    rw [ht] at hin ⊢
    exact runMain_ok_cleanup env o t hmain hin
  | thrown =>
    have ht : (runProcess env o).trace = t ++ [Event.cleanup] := by
      unfold runProcess; rw [hmain]
    rw [ht]
    simp
  | exited c =>
    have hp : (runProcess env o).path = ExitPath.directExit := by
      unfold runProcess; rw [hmain]
    exact absurd hp hpath

/-- Witness for C4: a fully successful single-phase run creates the handle
and releases it on the success path. -/
theorem claim_C4_witness :
    ((runProcess envTopUp oracleAllOk).path ≠ ExitPath.directExit
        ∧ Event.initSynapse ∈ (runProcess envTopUp oracleAllOk).trace)
      ∧ Event.cleanup ∈ (runProcess envTopUp oracleAllOk).trace :=
  ⟨⟨by decide, by decide⟩, claim_C4 envTopUp oracleAllOk (by decide) (by decide)⟩

/-- Counterexample to C4 as stated: on the ceiling-violation
`process.exit(1)` path of the upload phase, the service handle has been
created but no release happens before the process terminates. -/
theorem claim_C4_cex :
    (runProcess envCeil2 oracleLowBalance).exitCode = 1
      ∧ (runProcess envCeil2 oracleLowBalance).path = ExitPath.directExit
      ∧ Event.initSynapse ∈ (runProcess envCeil2 oracleLowBalance).trace
      ∧ Event.cleanup ∉ (runProcess envCeil2 oracleLowBalance).trace := by
  refine ⟨by decide, by decide, by decide, by decide⟩

/-- Given a cache directory and a readable metadata record, the from-cache
phase always returns normally, whatever the validation oracle does. -/
theorem fromCachePhase_ok (p : ProcEnv) (o : Oracle) (md : JSFinite) (mb : Int)
    (mt : Option Int) (d : String) (meta : Meta)
    (hcd : p.cacheDir = some d) (hm : o.readMeta = Except.ok meta) :
    (fromCachePhase p o md mb mt).2 = MainResult.ok := by
  simp [fromCachePhase, hcd, hm]

/-- Exit code of a from-cache run that read its metadata record: always 0,
whatever happens inside the validation block. -/
theorem fromCache_exit_zero (env : Env) (o : Oracle) (mb : Int) (mt : Option Int)
    (d : String) (meta : Meta)
    (hpk : getInput env "privateKey" "" ≠ "")
    (hmb : minBalanceParsed env = some mb)
    (hmt : maxTopUpParsed env = some mt)
    (htok : tokenFails env = false)
    (hph : phaseOf env = "from-cache")
    (hcd : env.proc.cacheDir = some d)
    (hm : o.readMeta = Except.ok meta) :
    (runProcess env o).exitCode = 0 := by
  have hrm := runMain_eq_fromCache env o mb mt hpk hmb hmt htok hph
  unfold runProcess
  rw [hrm]
  cases hfc : fromCachePhase env.proc o (minDaysOf env) mb mt with
  | mk t r =>
    have hr : r = MainResult.ok := by
      have h2 := fromCachePhase_ok env.proc o (minDaysOf env) mb mt d meta hcd hm
      rw [hfc] at h2
      exact h2
    subst hr
    simp

/-- The from-cache trace, given a cache directory and a readable record:
the metadata read, the eight outputs, the validation block's events
(with a warning appended when it threw), the `finally` release, the cache
mirroring, and the optional summary. -/
theorem fromCachePhase_trace (p : ProcEnv) (o : Oracle) (md : JSFinite) (mb : Int)
    (mt : Option Int) (d : String) (meta : Meta)
    (hcd : p.cacheDir = some d) (hm : o.readMeta = Except.ok meta) :
    (fromCachePhase p o md mb mt).1
      = [Event.readMeta]
        ++ outputEvents p.githubOutput
          [("root_cid", meta.rootCid), ("data_set_id", meta.dataSetId),
           ("piece_cid", meta.pieceCid), ("provider_id", metaProviderId meta),
           ("provider_name", metaProviderName meta), ("car_path", meta.carPath),
           ("metadata_path", joinPath d "upload.json"),
           ("upload_status",
             if jsToLower (p.fromArtifact.getD "") == "true" then "reused-artifact"
             else "reused-cache")]
        ++ (if (fromCacheTryBlock o md mb mt).2 then (fromCacheTryBlock o md mb mt).1
            else (fromCacheTryBlock o md mb mt).1 ++ [Event.warn])
        ++ [Event.cleanup] ++ [Event.mirrorCache]
        ++ (match p.githubStepSummary with | some _ => [Event.summary] | none => []) := by
  simp [fromCachePhase, hcd, hm]

/-- The validation block's events when the account is underfunded within
the ceiling and the re-validation calls succeed: the four set-up calls,
the deposit immediately followed by the status re-fetch, and the capacity
validation for the read CAR size. -/
theorem fromCacheTryBlock_topup (o : Oracle) (md : JSFinite) (mb : Int) (mt : Option Int)
    (st st2 : PaymentStatus) (n : Nat)
    (hcar : o.readCar = Except.ok n)
    (hinit : o.initSynapse = Except.ok ())
    (hallow : o.checkAllowances = Except.ok ())
    (hst : o.status1 = Except.ok st)
    (hpos : 0 < requiredTopUpOf o.topUpFor st md mb)
    (hceil : ceilingHit mt (requiredTopUpOf o.topUpFor st md mb) = false)
    (hdep : o.deposit (requiredTopUpOf o.topUpFor st md mb) = Except.ok ())
    (hst2 : o.status2 = Except.ok st2) :
    (fromCacheTryBlock o md mb mt).1
      = [Event.readCar, Event.initSynapse, Event.checkAllowances, Event.fetchStatus,
         Event.deposit (requiredTopUpOf o.topUpFor st md mb), Event.fetchStatus,
         Event.validateCapacity n] := by
  cases hv : o.validateSetup n <;>
    simp [fromCacheTryBlock, fromCacheValidateCapacity, hcar, hinit, hallow, hst,
      hpos, hceil, hdep, hst2, hv]

/-- The validation block's events on the underfunded-beyond-ceiling path:
the four set-up calls, then the internal throw (caught by the phase). -/
theorem fromCacheTryBlock_ceiling (o : Oracle) (md : JSFinite) (mb : Int) (mt : Option Int)
    (st : PaymentStatus) (n : Nat)
    (hcar : o.readCar = Except.ok n)
    (hinit : o.initSynapse = Except.ok ())
    (hallow : o.checkAllowances = Except.ok ())
    (hst : o.status1 = Except.ok st)
    (hpos : 0 < requiredTopUpOf o.topUpFor st md mb)
    (hch : ceilingHit mt (requiredTopUpOf o.topUpFor st md mb) = true) :
    fromCacheTryBlock o md mb mt
      = ([Event.readCar, Event.initSynapse, Event.checkAllowances, Event.fetchStatus],
         false) := by
  simp [fromCacheTryBlock, hcar, hinit, hallow, hst, hpos, hch]

/-- Output writes contain no deposit events. -/
theorem countP_deposit_outputEvents (gho : Option String) (kvs : List (String × String)) :
    (outputEvents gho kvs).countP isDepositEvent = 0 :=
  countP_deposit_zero _ (isTopUpEvent_outputEvents gho kvs)

/-- The optional summary append contains no deposit events. -/
theorem countP_deposit_summary (gss : Option String) :
    (match gss with
      | some _ => [Event.summary]
      | none => ([] : List Event)).countP isDepositEvent = 0 := by
  cases gss <;> simp [isDepositEvent]

/-- Trace of a from-cache run that read its metadata record: the whole
from-cache phase trace (the run returns normally, so the top-level error
handler adds nothing). -/
theorem fromCache_runProcess_trace (env : Env) (o : Oracle) (mb : Int) (mt : Option Int)
    (d : String) (meta : Meta)
    (hpk : getInput env "privateKey" "" ≠ "")
    (hmb : minBalanceParsed env = some mb)
    (hmt : maxTopUpParsed env = some mt)
    (htok : tokenFails env = false)
    (hph : phaseOf env = "from-cache")
    (hcd : env.proc.cacheDir = some d)
    (hm : o.readMeta = Except.ok meta) :
    (runProcess env o).trace = (fromCachePhase env.proc o (minDaysOf env) mb mt).1 := by
  have hrm := runMain_eq_fromCache env o mb mt hpk hmb hmt htok hph
  unfold runProcess
  rw [hrm]
  cases hfc : fromCachePhase env.proc o (minDaysOf env) mb mt with
  | mk t r =>
    have hr : r = MainResult.ok := by
      have h2 := fromCachePhase_ok env.proc o (minDaysOf env) mb mt d meta hcd hm
      rw [hfc] at h2
      exact h2
    subst hr
    simp

/-- C5: in the from-cache phase (with the guards passed and the cached
record readable) the allowance check, the top-up policy — a deposit
immediately followed by a status re-fetch when the account is underfunded
within the ceiling — and the capacity validation against the read CAR size
are still performed, the phase exits with status 0, any validation failure
(for every oracle) leaves the exit code 0, and an underfunded-beyond-ceiling
condition produces a warning with no deposit and still exit 0. -/
theorem claim_C5 (env : Env) (o : Oracle) (meta : Meta) (st st2 : PaymentStatus)
    (n : Nat) (mb : Int) (mt : Option Int) (d : String)
    (hpk : getInput env "privateKey" "" ≠ "")
    (hmb : minBalanceParsed env = some mb)
    (hmt : maxTopUpParsed env = some mt)
    (htok : tokenFails env = false)
    (hph : phaseOf env = "from-cache")
    (hcd : env.proc.cacheDir = some d)
    (hm : o.readMeta = Except.ok meta)
    (hcar : o.readCar = Except.ok n)
    (hinit : o.initSynapse = Except.ok ())
    (hallow : o.checkAllowances = Except.ok ())
    (hst : o.status1 = Except.ok st)
    (hpos : 0 < requiredTopUpOf o.topUpFor st (minDaysOf env) mb)
    (hceil : ceilingHit mt (requiredTopUpOf o.topUpFor st (minDaysOf env) mb) = false)
    (hdep : o.deposit (requiredTopUpOf o.topUpFor st (minDaysOf env) mb) = Except.ok ())
    (hst2 : o.status2 = Except.ok st2) :
    (runProcess env o).exitCode = 0
      ∧ Event.checkAllowances ∈ (runProcess env o).trace
      ∧ (∃ t1 t2, (runProcess env o).trace
          = t1 ++ [Event.deposit (requiredTopUpOf o.topUpFor st (minDaysOf env) mb),
              Event.fetchStatus] ++ t2)
      ∧ Event.validateCapacity n ∈ (runProcess env o).trace
      ∧ (∀ (o' : Oracle) (m' : Meta), o'.readMeta = Except.ok m' →
          (runProcess env o').exitCode = 0)
      ∧ (∀ (o2 : Oracle) (m2 : Meta) (st3 : PaymentStatus),
          o2.readMeta = Except.ok m2 → o2.readCar = Except.ok n →
          o2.initSynapse = Except.ok () → o2.checkAllowances = Except.ok () →
          o2.status1 = Except.ok st3 →
          0 < requiredTopUpOf o2.topUpFor st3 (minDaysOf env) mb →
          ceilingHit mt (requiredTopUpOf o2.topUpFor st3 (minDaysOf env) mb) = true →
          Event.warn ∈ (runProcess env o2).trace
            ∧ (runProcess env o2).trace.countP isDepositEvent = 0
            ∧ (runProcess env o2).exitCode = 0) := by
  have htr := fromCache_runProcess_trace env o mb mt d meta hpk hmb hmt htok hph hcd hm
  have htrace := fromCachePhase_trace env.proc o (minDaysOf env) mb mt d meta hcd hm
  have htb := fromCacheTryBlock_topup o (minDaysOf env) mb mt st st2 n hcar hinit
    hallow hst hpos hceil hdep hst2
  refine ⟨fromCache_exit_zero env o mb mt d meta hpk hmb hmt htok hph hcd hm,
    ?_, ?_, ?_, ?_, ?_⟩
  · rw [htr, htrace]
    by_cases htb2 : (fromCacheTryBlock o (minDaysOf env) mb mt).2 = true <;>
      simp [htb2, htb]
  · rw [htr, htrace]
    by_cases htb2 : (fromCacheTryBlock o (minDaysOf env) mb mt).2 = true
    · refine ⟨[Event.readMeta]
        ++ outputEvents env.proc.githubOutput
          [("root_cid", meta.rootCid), ("data_set_id", meta.dataSetId),
           ("piece_cid", meta.pieceCid), ("provider_id", metaProviderId meta),
           ("provider_name", metaProviderName meta), ("car_path", meta.carPath),
           ("metadata_path", joinPath d "upload.json"),
           ("upload_status",
             if jsToLower (env.proc.fromArtifact.getD "") == "true" then "reused-artifact"
             else "reused-cache")]
        ++ [Event.readCar, Event.initSynapse, Event.checkAllowances, Event.fetchStatus],
        [Event.validateCapacity n] ++ [Event.cleanup] ++ [Event.mirrorCache]
        ++ (match env.proc.githubStepSummary with
            | some _ => [Event.summary]
            | none => []), ?_⟩
      simp [htb2, htb]
    · refine ⟨[Event.readMeta]
        ++ outputEvents env.proc.githubOutput
          [("root_cid", meta.rootCid), ("data_set_id", meta.dataSetId),
           ("piece_cid", meta.pieceCid), ("provider_id", metaProviderId meta),
           ("provider_name", metaProviderName meta), ("car_path", meta.carPath),
           ("metadata_path", joinPath d "upload.json"),
           ("upload_status",
             if jsToLower (env.proc.fromArtifact.getD "") == "true" then "reused-artifact"
             else "reused-cache")]
        ++ [Event.readCar, Event.initSynapse, Event.checkAllowances, Event.fetchStatus],
        [Event.validateCapacity n] ++ [Event.warn] ++ [Event.cleanup] ++ [Event.mirrorCache]
        ++ (match env.proc.githubStepSummary with
            | some _ => [Event.summary]
            | none => []), ?_⟩
      simp [htb2, htb]
  · rw [htr, htrace]
    by_cases htb2 : (fromCacheTryBlock o (minDaysOf env) mb mt).2 = true <;>
      simp [htb2, htb]
  · intro o' m' hm'
    exact fromCache_exit_zero env o' mb mt d m' hpk hmb hmt htok hph hcd hm'
  · intro o2 m2 st3 hm2 hcar2 hinit2 hallow2 hst3 hpos2 hch2
    have htr2 := fromCache_runProcess_trace env o2 mb mt d m2 hpk hmb hmt htok hph hcd hm2
    have htrace2 := fromCachePhase_trace env.proc o2 (minDaysOf env) mb mt d m2 hcd hm2
    have htb2 := fromCacheTryBlock_ceiling o2 (minDaysOf env) mb mt st3 n hcar2 hinit2
      hallow2 hst3 hpos2 hch2
    refine ⟨?_, ?_,
      fromCache_exit_zero env o2 mb mt d m2 hpk hmb hmt htok hph hcd hm2⟩
    · rw [htr2, htrace2, htb2]
      simp
    · rw [htr2, htrace2, htb2]
      simp [List.countP_append, List.countP_cons, isDepositEvent,
        countP_deposit_outputEvents, countP_deposit_summary]

/-- A from-cache process environment with an output file configured. -/
def procFromCache : ProcEnv :=
  ProcEnv.mk (some "from-cache") none "/work" (some "out") none none
    (some "/cache") none none

/-- Environment for a from-cache run that is underfunded against a
5-USDFC minimum balance. -/
def envFromCache : Env :=
  Env.mk (inputsOf [("INPUT_PRIVATEKEY", "k"), ("INPUT_MINDAYS", "0"),
    ("INPUT_MINBALANCE", "5")]) procFromCache

/-- Witness for C5: an underfunded from-cache run performs the allowance
check, a deposit and the capacity validation, and exits 0. -/
theorem claim_C5_witness :
    0 < requiredTopUpOf oracleLowBalance.topUpFor (PaymentStatus.mk (2 * 10 ^ 18))
        (minDaysOf envFromCache) (5 * 10 ^ 18)
      ∧ (runProcess envFromCache oracleLowBalance).exitCode = 0
      ∧ Event.checkAllowances ∈ (runProcess envFromCache oracleLowBalance).trace
      ∧ Event.validateCapacity 5 ∈ (runProcess envFromCache oracleLowBalance).trace :=
  ⟨by decide,
   (claim_C5 envFromCache oracleLowBalance metaSample (PaymentStatus.mk (2 * 10 ^ 18))
     (PaymentStatus.mk (2 * 10 ^ 18)) 5 (5 * 10 ^ 18) none "/cache"
     (by decide) (by decide) (by decide) (by decide) (by decide) rfl rfl rfl rfl rfl rfl
     (by decide) rfl rfl rfl).1,
   (claim_C5 envFromCache oracleLowBalance metaSample (PaymentStatus.mk (2 * 10 ^ 18))
     (PaymentStatus.mk (2 * 10 ^ 18)) 5 (5 * 10 ^ 18) none "/cache"
     (by decide) (by decide) (by decide) (by decide) (by decide) rfl rfl rfl rfl rfl rfl
     (by decide) rfl rfl rfl).2.1,
   (claim_C5 envFromCache oracleLowBalance metaSample (PaymentStatus.mk (2 * 10 ^ 18))
     (PaymentStatus.mk (2 * 10 ^ 18)) 5 (5 * 10 ^ 18) none "/cache"
     (by decide) (by decide) (by decide) (by decide) (by decide) rfl rfl rfl rfl rfl rfl
     (by decide) rfl rfl rfl).2.2.2.1⟩

/-- C6: the from-cache phase (guards passed, record readable, output file
configured) writes outputs equal to the cached record's fields — root,
dataset and piece identifiers, provider id and name, archive path,
metadata path — and an `upload_status` of `reused-artifact` when the
provenance flag is set and `reused-cache` otherwise. -/
theorem claim_C6 (env : Env) (o : Oracle) (meta : Meta) (mb : Int) (mt : Option Int)
    (d f : String)
    (hpk : getInput env "privateKey" "" ≠ "")
    (hmb : minBalanceParsed env = some mb)
    (hmt : maxTopUpParsed env = some mt)
    (htok : tokenFails env = false)
    (hph : phaseOf env = "from-cache")
    (hcd : env.proc.cacheDir = some d)
    (hout : env.proc.githubOutput = some f)
    (hm : o.readMeta = Except.ok meta) :
    Event.output "root_cid" meta.rootCid ∈ (runProcess env o).trace
      ∧ Event.output "data_set_id" meta.dataSetId ∈ (runProcess env o).trace
      ∧ Event.output "piece_cid" meta.pieceCid ∈ (runProcess env o).trace
      ∧ Event.output "provider_id" (metaProviderId meta) ∈ (runProcess env o).trace
      ∧ Event.output "provider_name" (metaProviderName meta) ∈ (runProcess env o).trace
      ∧ Event.output "car_path" meta.carPath ∈ (runProcess env o).trace
      ∧ Event.output "metadata_path" (joinPath d "upload.json") ∈ (runProcess env o).trace
      ∧ Event.output "upload_status"
          (if fromArtifactOf env then "reused-artifact" else "reused-cache")
          ∈ (runProcess env o).trace := by
  have htr := fromCache_runProcess_trace env o mb mt d meta hpk hmb hmt htok hph hcd hm
  have htrace := fromCachePhase_trace env.proc o (minDaysOf env) mb mt d meta hcd hm
  rw [htr, htrace]
  refine ⟨?_, ?_, ?_, ?_, ?_, ?_, ?_, ?_⟩ <;>
    simp [outputEvents, hout, fromArtifactOf]

/-- Witness for C6 at a concrete cached record: all eight outputs are
written from the record, with the reuse tag `reused-cache` since the
provenance flag is unset. -/
theorem claim_C6_witness :
    fromArtifactOf envFromCache = false
      ∧ Event.output "root_cid" metaSample.rootCid
          ∈ (runProcess envFromCache oracleLowBalance).trace
      ∧ Event.output "provider_id" (metaProviderId metaSample)
          ∈ (runProcess envFromCache oracleLowBalance).trace
      ∧ Event.output "upload_status"
          (if fromArtifactOf envFromCache then "reused-artifact" else "reused-cache")
          ∈ (runProcess envFromCache oracleLowBalance).trace :=
  ⟨by decide,
   (claim_C6 envFromCache oracleLowBalance metaSample (5 * 10 ^ 18) none "/cache" "out"
     (by decide) (by decide) (by decide) (by decide) (by decide) rfl rfl rfl).1,
   (claim_C6 envFromCache oracleLowBalance metaSample (5 * 10 ^ 18) none "/cache" "out"
     (by decide) (by decide) (by decide) (by decide) (by decide) rfl rfl rfl).2.2.2.1,
   (claim_C6 envFromCache oracleLowBalance metaSample (5 * 10 ^ 18) none "/cache" "out"
     (by decide) (by decide) (by decide) (by decide) (by decide) rfl rfl rfl).2.2.2.2.2.2.2⟩

/-- Single-phase environment whose `INPUT_TOKEN` is present but empty. -/
def envEmptyToken : Env :=
  Env.mk (inputsOf [("INPUT_PRIVATEKEY", "k"), ("INPUT_TOKEN", "")]) procEmpty

/-- Counterexample to C8 as stated: the empty token value uppercases to
`""`, which is not `USDFC`, yet the guard `token && …` skips empty tokens:
the run proceeds to the network calls and completes with exit status 0. -/
theorem claim_C8_cex :
    getInput envEmptyToken "token" "USDFC" = ""
      ∧ jsToUpper (getInput envEmptyToken "token" "USDFC") ≠ "USDFC"
      ∧ (runProcess envEmptyToken oracleAllOk).exitCode = 0
      ∧ Event.initSynapse ∈ (runProcess envEmptyToken oracleAllOk).trace := by
  refine ⟨by decide, by decide, by decide, by decide⟩

/-- C8 (amended): for every non-empty token input value whose uppercase
form is not `USDFC`, the process exits with status 1 and the trace holds
no event other than, possibly, the error handler's release of the
never-created service handle (when amount parsing threw first): no network
call and no filesystem side effect happens. -/
theorem claim_C8 (env : Env) (o : Oracle)
    (hne : getInput env "token" "USDFC" ≠ "")
    (hup : jsToUpper (getInput env "token" "USDFC") ≠ "USDFC") :
    (runProcess env o).exitCode = 1
      ∧ ∀ e ∈ (runProcess env o).trace, e = Event.cleanup := by
  have htf : tokenFails env = true := by
    simp [tokenFails, bne_iff_ne, hne, hup]
  unfold runProcess
  by_cases hpk : getInput env "privateKey" "" = ""
  · unfold runMain
    simp [hpk]
  · cases hmb : minBalanceParsed env with
    | none =>
      unfold runMain
      simp [hpk, hmb]
    | some mb =>
      cases hmt : maxTopUpParsed env with
      | none =>
        unfold runMain
        simp [hpk, hmb, hmt]
      | some mt =>
        unfold runMain
        simp [hpk, hmb, hmt, htf]

/-- Single-phase environment selecting an unsupported token. -/
def envBadToken : Env :=
  Env.mk (inputsOf [("INPUT_PRIVATEKEY", "k"), ("INPUT_TOKEN", "FIL")]) procEmpty

/-- Witness for C8: token `FIL` exits 1 with no external call made. -/
theorem claim_C8_witness :
    getInput envBadToken "token" "USDFC" = "FIL"
      ∧ (runProcess envBadToken oracleAllOk).exitCode = 1
      ∧ ∀ e ∈ (runProcess envBadToken oracleAllOk).trace, e = Event.cleanup :=
  ⟨by decide,
   (claim_C8 envBadToken oracleAllOk (by decide) (by decide)).1,
   (claim_C8 envBadToken oracleAllOk (by decide) (by decide)).2⟩

/-- `!Number.isFinite(x) || x < 0` on a parsed JS number. -/
def jsNonFiniteOrNeg : JSNum → Bool
  | JSNum.num v => decide (v.mant < 0)
  | _ => true

/-- The same environment with the `minDays` input replaced by `"0"`. -/
def setMinDaysZero (env : Env) : Env :=
  Env.mk (fun k => if k = "INPUT_MINDAYS" then some "0" else env.inputVars k) env.proc

/-- Replacing the `minDays` input leaves every other input unchanged. -/
theorem getInput_setMinDaysZero (env : Env) (name fb : String)
    (h : ("INPUT_" ++ jsToUpper name) ≠ "INPUT_MINDAYS") :
    getInput (setMinDaysZero env) name fb = getInput env name fb := by
  unfold getInput setMinDaysZero
  simp [h]

/-- With the `minDays` input replaced by `"0"`, the parsed `minDays` is 0. -/
theorem minDaysOf_setZero (env : Env) : minDaysOf (setMinDaysZero env) = JSFinite.mk 0 0 := by
  have hname : ("INPUT_" ++ jsToUpper "minDays") = "INPUT_MINDAYS" := by decide
  have hg : getInput (setMinDaysZero env) "minDays" "10" = "0" := by
    unfold getInput setMinDaysZero
    rw [hname]
    simp
    decide
  unfold minDaysOf
  rw [hg]
  decide

/-- A non-finite or negative parsed `minDays` is coerced to 0. -/
theorem minDaysOf_zero_of_malformed (env : Env)
    (h : jsNonFiniteOrNeg (jsNumberOfString (getInput env "minDays" "10")) = true) :
    minDaysOf env = JSFinite.mk 0 0 := by
  unfold minDaysOf
  cases hn : jsNumberOfString (getInput env "minDays" "10") with
  | nan => simp [coerceMinDays]
  | posInf => simp [coerceMinDays]
  | negInf => simp [coerceMinDays]
  | num v =>
    rw [hn] at h
    have hneg : v.mant < 0 := by simpa [jsNonFiniteOrNeg] using h
    simp [coerceMinDays, hneg]

/-- With a non-finite or negative `minDays` input, the whole run is the
same as with a `"0"` input. -/
theorem runProcess_setMinDaysZero (env : Env) (o : Oracle)
    (h : jsNonFiniteOrNeg (jsNumberOfString (getInput env "minDays" "10")) = true) :
    runProcess env o = runProcess (setMinDaysZero env) o := by
  have hmd : minDaysOf env = JSFinite.mk 0 0 := minDaysOf_zero_of_malformed env h
  have hmd' : minDaysOf (setMinDaysZero env) = JSFinite.mk 0 0 := minDaysOf_setZero env
  have hpk := getInput_setMinDaysZero env "privateKey" "" (by decide)
  have hbal : minBalanceParsed (setMinDaysZero env) = minBalanceParsed env := by
    unfold minBalanceParsed
    rw [getInput_setMinDaysZero env "minBalance" "" (by decide)]
  have hmax : maxTopUpParsed (setMinDaysZero env) = maxTopUpParsed env := by
    unfold maxTopUpParsed
    rw [getInput_setMinDaysZero env "maxTopUp" "" (by decide)]
  have htok : tokenFails (setMinDaysZero env) = tokenFails env := by
    unfold tokenFails
    rw [getInput_setMinDaysZero env "token" "USDFC" (by decide)]
  have hph : phaseOf (setMinDaysZero env) = phaseOf env := rfl
  have hproc : (setMinDaysZero env).proc = env.proc := rfl
  have hrm : runMain (setMinDaysZero env) o = runMain env o := by
    unfold runMain
    rw [hpk, hbal, hmax, htok, hph, hproc, hmd', hmd]
  unfold runProcess
  rw [hrm]

/-- C10: a non-empty `minBalance` or `maxTopUp` input that is not a valid
decimal makes configuration parsing throw, so the process exits with
status 1 having performed no deposit, no upload, indeed no external call
at all (only the handler's release of the never-created handle); whereas a
non-finite or negative `minDays` input does not fail the run but is
coerced to 0, leaving the whole run identical to one with `minDays = "0"`. -/
theorem claim_C10 :
    (∀ (env : Env) (o : Oracle),
      ((getInput env "minBalance" "" ≠ ""
          ∧ parseUnits18 (getInput env "minBalance" "") = none)
        ∨ (getInput env "maxTopUp" "" ≠ ""
          ∧ parseUnits18 (getInput env "maxTopUp" "") = none)) →
      (runProcess env o).exitCode = 1
        ∧ ∀ e ∈ (runProcess env o).trace, e = Event.cleanup)
    ∧ (∀ (env : Env) (o : Oracle),
      jsNonFiniteOrNeg (jsNumberOfString (getInput env "minDays" "10")) = true →
      minDaysOf env = JSFinite.mk 0 0
        ∧ runProcess env o = runProcess (setMinDaysZero env) o) := by
  constructor
  · intro env o hbad
    unfold runProcess
    by_cases hpk : getInput env "privateKey" "" = ""
    · unfold runMain
      simp [hpk]
    · have hthrow : minBalanceParsed env = none ∨
          ((∃ mb, minBalanceParsed env = some mb) ∧ maxTopUpParsed env = none) := by
        rcases hbad with ⟨hne, hp⟩ | ⟨hne, hp⟩
        · left
          unfold minBalanceParsed
          simp [hne, hp]
        · cases hmb : minBalanceParsed env with
          | none => exact Or.inl rfl
          | some mb =>
            right
            refine ⟨⟨mb, rfl⟩, ?_⟩
            unfold maxTopUpParsed
            simp [hne, hp]
      rcases hthrow with hmb | ⟨⟨mb, hmb⟩, hmt⟩
      · unfold runMain
        simp [hpk, hmb]
      · unfold runMain
        simp [hpk, hmb, hmt]
  · intro env o h
    exact ⟨minDaysOf_zero_of_malformed env h, runProcess_setMinDaysZero env o h⟩

/-- Environment with a malformed `minBalance` input. -/
def envBadBalance : Env :=
  Env.mk (inputsOf [("INPUT_PRIVATEKEY", "k"), ("INPUT_MINBALANCE", "abc")]) procEmpty

/-- Environment with a negative `minDays` input. -/
def envNegDays : Env :=
  Env.mk (inputsOf [("INPUT_PRIVATEKEY", "k"), ("INPUT_MINDAYS", "-5")]) procEmpty

/-- Witness for C10: `minBalance = "abc"` exits 1 with no calls made, and
`minDays = "-5"` runs exactly like `minDays = "0"`. -/
theorem claim_C10_witness :
    (getInput envBadBalance "minBalance" "" = "abc"
      ∧ parseUnits18 "abc" = none
      ∧ (runProcess envBadBalance oracleAllOk).exitCode = 1
      ∧ ∀ e ∈ (runProcess envBadBalance oracleAllOk).trace, e = Event.cleanup)
    ∧ (jsNonFiniteOrNeg (jsNumberOfString (getInput envNegDays "minDays" "10")) = true
      ∧ minDaysOf envNegDays = JSFinite.mk 0 0
      ∧ runProcess envNegDays oracleAllOk
          = runProcess (setMinDaysZero envNegDays) oracleAllOk) :=
  ⟨⟨by decide, by decide,
    (claim_C10.1 envBadBalance oracleAllOk (Or.inl ⟨by decide, by decide⟩)).1,
    (claim_C10.1 envBadBalance oracleAllOk (Or.inl ⟨by decide, by decide⟩)).2⟩,
   ⟨by decide,
    (claim_C10.2 envNegDays oracleAllOk (by decide)).1,
    (claim_C10.2 envNegDays oracleAllOk (by decide)).2⟩⟩
